import Mathlib

/-!
# Verification of the keepa client library's token ledger, batch dispatcher and CSV decoder

Shallow embedding of the core of the `keepa` python client (akaszynski/keepa).
The repository contains several historical versions of the same module:

* `keepaAPI/Interface.py` — the legacy client (`UserStatus`, `API.ProductQuery`,
  `API.WaitForTokens`, `ParseCSV`);
* `src/keepa/interface.py` — the modern client (`Keepa.query`, `Keepa._request`,
  `Keepa.wait_for_tokens`, `Keepa.time_to_refill`, `parse_csv`,
  `keepa_minutes_to_time`) together with an `AsyncKeepa` variant of the same logic;
* `src/keepa/constants.py` / `src/keepa/utils.py` / `src/keepa/keepa_async.py` —
  the newest layout (13-entry `DCODES` including `"BR"`, `_domain_to_dcode`).

Python integers are embedded as `ℤ`/`ℕ` and python float arithmetic as exact `ℚ`
arithmetic (the values involved are ratios of machine integers).  Stateful
methods become pure functions on an explicit state; the wall clock and the
server's responses are inputs.
-/

/-- Python's `int()` applied to an exact rational: truncation toward zero. -/
def pyInt (q : ℚ) : ℤ := if q < 0 then -⌊-q⌋ else ⌊q⌋

/-- The four fields of `UserStatus.status` in `keepaAPI/Interface.py` (also the
fields used by the modern `Keepa`: `self.status['timestamp']`,
`self.status['refillIn']`, `self.status['refillRate']` and `self.tokens_left`).
All are integers in the source (millisecond timestamps, tokens). -/
structure UStatus where
  tokensLeft : ℤ
  refillRate : ℤ
  refillIn : ℤ
  timestamp : ℤ
deriving DecidableEq, Repr

/-- `UserStatus.LocalUpdate` (keepaAPI/Interface.py lines 121-141): project the
ledger to instant `t` (ms since epoch) without contacting the server.  Python's
`nrefil % 1` on a float with positive modulus is `Int.fract`; `int(...)` is
`pyInt`. -/
def LocalUpdate (st : UStatus) (t : ℤ) : UStatus :=
  let lstrefil : ℤ := st.timestamp - (60000 - st.refillIn)
  let nrefil : ℚ := ((t - lstrefil : ℤ) : ℚ) / 60000
  let tokens : ℤ :=
    if 1 < nrefil then
      let tk := st.tokensLeft + st.refillRate * pyInt nrefil
      if 60 * st.refillRate < tk then 60 * st.refillRate else tk
    else st.tokensLeft
  { tokensLeft := tokens
    refillRate := st.refillRate
    refillIn := pyInt ((1 - Int.fract nrefil) * 60000)
    timestamp := t }

/-- `UserStatus.RemoveTokens` (keepaAPI/Interface.py lines 144-147): local
update at the current instant, then debit. -/
def RemoveTokens (st : UStatus) (t : ℤ) (tokens : ℤ) : UStatus :=
  let st' := LocalUpdate st t
  { st' with tokensLeft := st'.tokensLeft - tokens }

/-- `UserStatus.TimeToRefill` (keepaAPI/Interface.py lines 155-166): seconds
until the next refill.  Note this legacy version has no correction for a
negative token balance. -/
def TimeToRefill (st : UStatus) (now : ℤ) : ℚ :=
  let timeatrefile : ℤ := st.timestamp + st.refillIn
  let timetorefil : ℤ := timeatrefile - now + 1000
  let timetorefil : ℤ := if timetorefil < 0 then 0 else timetorefil
  (timetorefil : ℚ) / 1000

/-- `Keepa.time_to_refill` (src/keepa/interface.py lines 411-441, identical in
`AsyncKeepa`): like the legacy `TimeToRefill` but with an extra
`(abs(tokens_left) / refillRate) * 60000` ms added when `tokens_left < 0`. -/
def time_to_refill (st : UStatus) (now : ℤ) : ℚ :=
  let timeatrefile : ℤ := st.timestamp + st.refillIn
  let timetorefil : ℤ := timeatrefile - now + 1000
  let timetorefil : ℤ := if timetorefil < 0 then 0 else timetorefil
  let withDebt : ℚ :=
    if st.tokensLeft < 0 then
      (timetorefil : ℚ) + ((|st.tokensLeft| : ℚ) / (st.refillRate : ℚ)) * 60000
    else (timetorefil : ℚ)
  withDebt / 1000

/-- `API.WaitForTokens(updatetype='local')` (keepaAPI/Interface.py lines
404-429), as invoked by `API.ProductQuery`: refresh locally at instant `t1`
(ms); if no tokens remain, sleep `TimeToRefill` seconds and refresh locally
again.  The model sleeps exactly `tdelay` seconds, so the second refresh
happens at `t1 + int(tdelay * 1000)` ms. -/
def WaitForTokensLocal (st : UStatus) (t1 : ℤ) : UStatus :=
  let st1 := LocalUpdate st t1
  if st1.tokensLeft ≤ 0 then
    let tdelay := TimeToRefill st1 t1
    LocalUpdate st1 (t1 + pyInt (tdelay * 1000))
  else st1

/-- The sub-batch size computed by one iteration of `API.ProductQuery`'s
dispatch loop (keepaAPI/Interface.py lines 530-534): start from the remaining
item count, clamp to the ledger's remaining tokens, then clamp to the request
limit `reqlim = 100`. -/
def nrequestPQ (nitems idx tokens : ℤ) : ℤ :=
  let n0 := nitems - idx
  let n1 := if tokens < n0 then tokens else n0
  if 100 < n1 then 100 else n1

/-- The dispatch loop of `API.ProductQuery` (keepaAPI/Interface.py lines
520-539), driven by an oracle `ts` of wall-clock instants, one per iteration
(the loop body reads the clock inside `WaitForTokens` and `RemoveTokens`).
Each iteration records `(idx, tokens at the check, sub-batch size issued)`.
The recursion consumes one oracle instant per iteration, so the trace covers
the first `ts.length` iterations of the (possibly longer) loop. -/
def ProductQueryIters (nitems : ℤ) : ℤ → UStatus → List ℤ → List (ℤ × ℤ × ℤ)
  | _, _, [] => []
  | idx, st, t :: ts =>
    if idx < nitems then
      let stw := WaitForTokensLocal st t
      let n := nrequestPQ nitems idx stw.tokensLeft
      (idx, stw.tokensLeft, n) :: ProductQueryIters nitems (idx + n) (RemoveTokens stw t n) ts
    else []

/-- The sub-batch size computed by one iteration of the modern `Keepa.query`
dispatch loop (src/keepa/interface.py lines 834-838, identically in
`AsyncKeepa.query`): the remaining item count capped at `REQUEST_LIMIT = 100`.
No clamp against the ledger's `tokens_left` exists in this version. -/
def nrequestQuery (nitems idx : ℕ) : ℕ :=
  if 100 < nitems - idx then 100 else nitems - idx

/-- The dispatch loop of the modern `Keepa.query` (src/keepa/interface.py
lines 832-869): each iteration records `(idx, sub-batch size issued)`.  The
loop never consults `tokens_left`. -/
def queryIters (nitems idx : ℕ) : List (ℕ × ℕ) :=
  if idx < nitems then
    (idx, nrequestQuery nitems idx) :: queryIters nitems (idx + nrequestQuery nitems idx)
  else []
termination_by nitems - idx
decreasing_by
  simp only [nrequestQuery]
  split <;> omega

/-- Iterated local refill projection: `LocalUpdate` folded over a list of
instants. -/
def localUpdates (st : UStatus) (ts : List ℤ) : UStatus :=
  ts.foldl LocalUpdate st

/-- The `timeToRefill` formula stated by the specification (spec section 4.1):
`max(0, timestamp + refill_in - now + 1000ms)`, plus
`(|tokens_left| / refill_rate) * 60000` ms when `tokens_left < 0`, then
converted to seconds.  This is the claimed behaviour, written from the spec's
words, to be compared with the source functions above. -/
def claimedTimeToRefill (st : UStatus) (now : ℤ) : ℚ :=
  ((max 0 (st.timestamp + st.refillIn - now + 1000) : ℤ) +
    (if st.tokensLeft < 0 then ((|st.tokensLeft| : ℚ) / (st.refillRate : ℚ)) * 60000 else 0)) / 1000

/-- The spec's `last_refill_instant = timestamp - (60000 - refill_in)`
(spec section 4.1, step 1), the same formula as the source's `lstrefil`. -/
def lastRefillInstant (st : UStatus) : ℤ := st.timestamp - (60000 - st.refillIn)

/-- The spec's `elapsed_cycles = (now - last_refill_instant) / 60000`
(spec section 4.1, step 2), the same formula as the source's `nrefil`. -/
def elapsedCycles (st : UStatus) (now : ℤ) : ℚ :=
  ((now - lastRefillInstant st : ℤ) : ℚ) / 60000

theorem pyInt_intCast (m : ℤ) : pyInt (m : ℚ) = m := by
  unfold pyInt
  split
  · rw [← Int.cast_neg, Int.floor_intCast]; omega
  · rw [Int.floor_intCast]

theorem pyInt_eq_floor_of_nonneg {q : ℚ} (h : 0 ≤ q) : pyInt q = ⌊q⌋ :=
  if_neg (not_lt.2 h)

theorem fract_intCast_div_sixtyk (n : ℤ) :
    Int.fract ((n : ℚ) / 60000) = ((n % 60000 : ℤ) : ℚ) / 60000 := by
  rw [Int.fract]
  have h : ⌊(n : ℚ) / 60000⌋ = n / (60000 : ℤ) := by
    have := Rat.floor_intCast_div_natCast n 60000
    push_cast at this ⊢
    exact this
  rw [h, Int.emod_def]
  push_cast
  ring

theorem one_sub_fract_mul_sixtyk (n : ℤ) :
    (1 - Int.fract ((n : ℚ) / 60000)) * 60000 = ((60000 - n % 60000 : ℤ) : ℚ) := by
  rw [fract_intCast_div_sixtyk]
  push_cast
  field_simp

/-- **C2** (confirmed): the local projection `LocalUpdate` applied at instant
`now` computes `last_refill_instant = timestamp - (60000 - refill_in)` and
`elapsed_cycles = (now - last_refill_instant) / 60000`; if `elapsed_cycles > 1`
it adds `refill_rate * floor(elapsed_cycles)` to `tokens_left` and clamps
`tokens_left` to at most `60 * refill_rate`; it then sets `timestamp = now` and
`refill_in = (1 - (elapsed_cycles mod 1)) * 60000`.  It never contacts the
server: `LocalUpdate` is a pure function of the stored state and the clock
reading alone. -/
theorem c2_localUpdate_matches_spec (st : UStatus) (now : ℤ) :
    (LocalUpdate st now).timestamp = now ∧
    (LocalUpdate st now).refillRate = st.refillRate ∧
    (LocalUpdate st now).tokensLeft =
      (if 1 < elapsedCycles st now
        then min (st.tokensLeft + st.refillRate * ⌊elapsedCycles st now⌋) (60 * st.refillRate)
        else st.tokensLeft) ∧
    ((LocalUpdate st now).refillIn : ℚ) = (1 - Int.fract (elapsedCycles st now)) * 60000 := by
  refine ⟨rfl, rfl, ?_, ?_⟩
  · simp only [LocalUpdate, elapsedCycles, lastRefillInstant]
    split
    case isTrue h =>
      rw [pyInt_eq_floor_of_nonneg (zero_le_one.trans h.le)]
      rw [min_def]
      split_ifs <;> omega
    case isFalse h => rfl
  · simp only [LocalUpdate, elapsedCycles, lastRefillInstant]
    rw [one_sub_fract_mul_sixtyk, pyInt_intCast]

/-- **C4** (amended): for every ledger state and instant, the modern
`Keepa.time_to_refill` returns exactly
`(max 0 (timestamp + refillIn - now + 1000) + (if tokens_left < 0 then
(|tokens_left| / refillRate) * 60000 else 0)) / 1000` seconds, while the legacy
`keepaAPI` `UserStatus.TimeToRefill` returns only
`max 0 (timestamp + refillIn - now + 1000) / 1000`, without the negative-token
correction. -/
theorem c4_time_to_refill_formulas (st : UStatus) (now : ℤ) :
    time_to_refill st now = claimedTimeToRefill st now ∧
    TimeToRefill st now = ((max 0 (st.timestamp + st.refillIn - now + 1000) : ℤ) : ℚ) / 1000 := by
  have hm : ((if st.timestamp + st.refillIn - now + 1000 < 0 then (0 : ℤ)
      else st.timestamp + st.refillIn - now + 1000)) =
      max 0 (st.timestamp + st.refillIn - now + 1000) := by
    rw [max_def]; split_ifs <;> omega
  constructor
  · simp only [time_to_refill, claimedTimeToRefill, hm]
    split_ifs with htok
    · ring
    · push_cast; ring
  · simp only [TimeToRefill, hm]

/-- **C4** (counterexample to the claim as stated): at the state with
`tokens_left = -100`, `refill_rate = 5`, `refill_in = 60000 ms`,
`timestamp = 0` and `now = 0`, the cited legacy `TimeToRefill` returns 61
seconds, not the 61 + (100/5)*60 = 1261 seconds demanded by the claimed
formula's negative-token correction. -/
theorem c4_counterexample :
    TimeToRefill ⟨-100, 5, 60000, 0⟩ 0 = 61 ∧
    claimedTimeToRefill ⟨-100, 5, 60000, 0⟩ 0 = 1261 ∧
    TimeToRefill ⟨-100, 5, 60000, 0⟩ 0 ≠ claimedTimeToRefill ⟨-100, 5, 60000, 0⟩ 0 := by
  refine ⟨by norm_num [TimeToRefill], by norm_num [claimedTimeToRefill], ?_⟩
  norm_num [TimeToRefill, claimedTimeToRefill]

theorem localUpdate_cap_preserved {st : UStatus} (t : ℤ)
    (h : st.tokensLeft ≤ 60 * st.refillRate) :
    (LocalUpdate st t).tokensLeft ≤ 60 * (LocalUpdate st t).refillRate := by
  simp only [LocalUpdate]
  split
  · split <;> omega
  · exact h

/-- **C8** (amended): after any number of local refill projections over any
sequence of strictly increasing instants, `tokens_left` stays at most
`60 * refill_rate`, provided the starting state already satisfies that cap.
(The unmodified claim, quantifying over arbitrary starting states, is refuted
by `c8_counterexample`.) -/
theorem c8_cap_invariant (st : UStatus) (ts : List ℤ)
    (hts : List.Chain' (· < ·) ts) (h : st.tokensLeft ≤ 60 * st.refillRate) :
    (localUpdates st ts).tokensLeft ≤ 60 * (localUpdates st ts).refillRate := by
  clear hts  -- monotone instants are not needed: the cap is preserved at every step
  induction ts generalizing st with
  | nil => exact h
  | cons t ts ih => exact ih (LocalUpdate st t) (localUpdate_cap_preserved t h)

theorem c8_witness :
    (localUpdates ⟨50, 20, 60000, 0⟩ [1000, 2000]).tokensLeft ≤
      60 * (localUpdates ⟨50, 20, 60000, 0⟩ [1000, 2000]).refillRate :=
  c8_cap_invariant ⟨50, 20, 60000, 0⟩ [1000, 2000]
    (by simp [List.chain'_cons]) (by decide)

/-- **C8** (counterexample to the claim as stated): from the starting state
`tokens_left = 7000`, `refill_rate = 1` (cap `60`), one projection 1000 ms
later elapses less than one refill cycle, adds nothing, leaves
`tokens_left = 7000`, and so exceeds the claimed cap. -/
theorem c8_counterexample :
    List.Chain' (· < ·) [(1000 : ℤ)] ∧
    (localUpdates ⟨7000, 1, 60000, 0⟩ [1000]).tokensLeft = 7000 ∧
    60 * (localUpdates ⟨7000, 1, 60000, 0⟩ [1000]).refillRate <
      (localUpdates ⟨7000, 1, 60000, 0⟩ [1000]).tokensLeft := by
  refine ⟨List.chain'_singleton 1000, ?_, ?_⟩ <;>
    norm_num [localUpdates, LocalUpdate, pyInt, Int.fract]

/-- **C3** (amended): when `WaitForTokens` (local-update mode, as used by
`ProductQuery`) returns without sleeping, `tokens_left` is positive, and a
dispatch-loop iteration entered with positive tokens and items remaining
computes a positive sub-batch size.  The unamended claim — that `tokens_left`
is positive whenever `WaitForTokens` returns — fails on the sleep path, which
refreshes once after a single sleep and returns whatever balance results
(see `c3_counterexample`). -/
theorem c3_wait_for_tokens :
    (∀ (st : UStatus) (t : ℤ), 0 < (LocalUpdate st t).tokensLeft →
      WaitForTokensLocal st t = LocalUpdate st t ∧
        0 < (WaitForTokensLocal st t).tokensLeft) ∧
    (∀ nitems idx tokens : ℤ, idx < nitems → 0 < tokens →
      0 < nrequestPQ nitems idx tokens) := by
  constructor
  · intro st t h
    have h' : ¬(LocalUpdate st t).tokensLeft ≤ 0 := not_le.2 h
    refine ⟨by simp only [WaitForTokensLocal, if_neg h'], ?_⟩
    simpa only [WaitForTokensLocal, if_neg h'] using h
  · intro nitems idx tokens h1 h2
    simp only [nrequestPQ]
    split_ifs <;> omega

theorem c3_witness :
    WaitForTokensLocal ⟨50, 20, 60000, 0⟩ 0 = LocalUpdate ⟨50, 20, 60000, 0⟩ 0 ∧
    0 < (WaitForTokensLocal ⟨50, 20, 60000, 0⟩ 0).tokensLeft ∧
    0 < nrequestPQ 250 0 50 := by
  have h : 0 < (LocalUpdate ⟨50, 20, 60000, 0⟩ 0).tokensLeft := by
    norm_num [LocalUpdate, pyInt, Int.fract]
  exact ⟨(c3_wait_for_tokens.1 _ 0 h).1, (c3_wait_for_tokens.1 _ 0 h).2,
    c3_wait_for_tokens.2 250 0 50 (by decide) (by decide)⟩

/-- **C3** (counterexample to the claim as stated): starting from
`tokens_left = -100`, `refill_rate = 5`, `refill_in = 60000 ms` at `t = 0`,
`WaitForTokens` (local mode) sleeps `TimeToRefill = 61` seconds, refreshes
once — gaining a single refill of 5 tokens — and returns with
`tokens_left = -95 ≤ 0`; the ProductQuery iteration entered immediately after
computes the sub-batch size `-95 ≤ 0`. -/
theorem c3_counterexample :
    (WaitForTokensLocal ⟨-100, 5, 60000, 0⟩ 0).tokensLeft = -95 ∧
    nrequestPQ 10 0 (WaitForTokensLocal ⟨-100, 5, 60000, 0⟩ 0).tokensLeft ≤ 0 := by
  have h : (WaitForTokensLocal ⟨-100, 5, 60000, 0⟩ 0).tokensLeft = -95 := by
    norm_num [WaitForTokensLocal, LocalUpdate, TimeToRefill, pyInt, Int.fract]
  refine ⟨h, ?_⟩
  rw [h]
  decide

/-- **C1** (amended): in every iteration of the legacy `API.ProductQuery`
dispatch loop, the sub-batch size issued equals
`min(items_remaining, min(tokens_left at the check, 100))`; in every iteration
of the modern `Keepa.query` loop the sub-batch size equals
`min(items_remaining, 100)` — the modern loop has no clamp against the
ledger's `tokens_left` (see `c1_counterexample`). -/
theorem c1_batch_size_bound :
    (∀ (nitems idx : ℤ) (st : UStatus) (ts : List ℤ) (it : ℤ × ℤ × ℤ),
      it ∈ ProductQueryIters nitems idx st ts →
        it.2.2 = min (nitems - it.1) (min it.2.1 100)) ∧
    (∀ (nitems idx : ℕ) (p : ℕ × ℕ), p ∈ queryIters nitems idx →
        p.2 = min (nitems - p.1) 100) := by
  constructor
  · intro nitems idx st ts
    induction ts generalizing idx st with
    | nil => intro it hit; simp [ProductQueryIters] at hit
    | cons t ts ih =>
      intro it hit
      simp only [ProductQueryIters] at hit
      split at hit
      · rcases List.mem_cons.1 hit with h | h
        · subst h
          simp only [nrequestPQ]
          split_ifs <;> omega
        · exact ih _ _ it h
      · simp at hit
  · intro nitems
    have key : ∀ (k idx : ℕ), nitems - idx ≤ k →
        ∀ p ∈ queryIters nitems idx, p.2 = min (nitems - p.1) 100 := by
      intro k
      induction k with
      | zero =>
        intro idx hk p hp
        rw [queryIters] at hp
        rw [if_neg (by omega)] at hp
        simp at hp
      | succ k ih =>
        intro idx hk p hp
        rw [queryIters] at hp
        by_cases hlt : idx < nitems
        · rw [if_pos hlt] at hp
          rcases List.mem_cons.1 hp with h | h
          · subst h
            simp only [nrequestQuery]
            split_ifs <;> omega
          · refine ih (idx + nrequestQuery nitems idx) ?_ p h
            simp only [nrequestQuery]
            split_ifs <;> omega
        · rw [if_neg hlt] at hp
          simp at hp
    intro idx
    exact key (nitems - idx) idx le_rfl

theorem c1_witness :
    ((0 : ℤ), (50 : ℤ), (50 : ℤ)).2.2 =
      min ((250 : ℤ) - (0, (50 : ℤ), (50 : ℤ)).1)
        (min ((0 : ℤ), (50 : ℤ), (50 : ℤ)).2.1 100) ∧
    ((0 : ℕ), (5 : ℕ)).2 = min ((5 : ℕ) - ((0 : ℕ), (5 : ℕ)).1) 100 := by
  constructor
  · refine c1_batch_size_bound.1 250 0 ⟨50, 20, 60000, 0⟩ [0] (0, 50, 50) ?_
    have h1 : LocalUpdate ⟨50, 20, 60000, 0⟩ 0 = ⟨50, 20, 60000, 0⟩ := by
      norm_num [LocalUpdate, pyInt, Int.fract]
    have hw : WaitForTokensLocal ⟨50, 20, 60000, 0⟩ 0 = ⟨50, 20, 60000, 0⟩ := by
      rw [WaitForTokensLocal]
      norm_num [h1]
    have hn : nrequestPQ 250 0 (50 : ℤ) = 50 := by decide
    have h : ProductQueryIters 250 0 ⟨50, 20, 60000, 0⟩ [0] = [(0, 50, 50)] := by
      simp only [ProductQueryIters, hw, hn]
      norm_num
    rw [h]
    exact List.mem_singleton.2 rfl
  · have h : queryIters 5 0 = [(0, 5)] := by
      rw [queryIters]
      norm_num [nrequestQuery]
      rw [queryIters]
      norm_num
    exact c1_batch_size_bound.2 5 0 (0, 5) (by rw [h]; exact List.mem_singleton.2 rfl)

/-- **C1** (counterexample to the claim as stated): with 5 items and the
client's ledger at `tokens_left = 0`, the modern `Keepa.query` loop issues a
first sub-batch of size 5 — its loop never reads `tokens_left` — exceeding the
claimed bound `min(items_remaining, 100, tokens_left) = 0`. -/
theorem c1_counterexample :
    queryIters 5 0 = [(0, 5)] ∧ ¬((5 : ℤ) ≤ min (5 - 0) (min 0 100)) := by
  constructor
  · rw [queryIters]
    norm_num [nrequestQuery]
    rw [queryIters]
    norm_num
  · decide

/-- Decoded sample value: either a number or numpy's NaN marker, which
`parse_csv` assigns to out-of-stock samples when `out_of_stock_as_nan` is
set. -/
inductive KVal where
  | nan : KVal
  | num : ℚ → KVal
deriving DecidableEq, Repr

/-- `l₁.isPrefixOf`-based substring test on character lists, mirroring
Python's `sub in s` on strings (`"SHIPPING" in key` in `parse_csv`). -/
def containsSub (pat : List Char) : List Char → Bool
  | [] => pat.isEmpty
  | c :: rest => pat.isPrefixOf (c :: rest) || containsSub pat rest

/-- Python's `"SHIPPING" in key`. -/
def hasSHIPPING (key : String) : Bool := containsSub "SHIPPING".toList key.toList

/-- Python's `l[::2]` slicing. -/
def everyOther : List ℤ → List ℤ
  | [] => []
  | [x] => [x]
  | x :: _ :: rest => x :: everyOther rest

/-- Python's `l[::3]` slicing. -/
def everyThird : List ℤ → List ℤ
  | [] => []
  | [x] => [x]
  | [x, _] => [x]
  | x :: _ :: _ :: rest => x :: everyThird rest

/-- The ordinal anchor `KEEPA_ST_ORDINAL = 2011-01-01T00:00:00Z`
(src/keepa/interface.py line 31), expressed in minutes since the Unix epoch:
14975 days * 1440 minutes. -/
def KEEPA_ST_ORDINAL : ℤ := 21564000

/-- `keepa_minutes_to_time` (src/keepa/interface.py lines 3169-3181): keepa
times are integer minutes added to the 2011-01-01 anchor.  Instants are
represented as minutes since the Unix epoch (the `to_datetime` flag in the
source only changes the python datatype of the result, not its value). -/
def keepa_minutes_to_time (minutes : List ℤ) : List ℤ :=
  minutes.map (fun m => m + KEEPA_ST_ORDINAL)

/-- The `RATING` rescaling `values *= 10` of `parse_csv` (numpy multiplication
maps NaN to NaN). -/
def ratingScale : KVal → KVal
  | .nan => .nan
  | .num q => .num (q * 10)

/-- The body of `parse_csv`'s per-field loop (src/keepa/interface.py lines
297-323) for a non-empty raw field array: stride-2 decoding, or stride-3 with
`values + shipping` when the key contains `"SHIPPING"` (numpy adds the two
equal-length slices elementwise; `List.zipWith` is that elementwise sum); the
out-of-stock mask `values < 0` is taken on the raw (summed) integers, the
values are scaled by 1/100 when the field is price-like, masked entries become
NaN when `out_of_stock_as_nan` is set, and `RATING` is rescaled by 10.
Returns (decoded times, decoded values). -/
def parseEntry (key : String) (isfloat : Bool) (outOfStockAsNan : Bool)
    (field : List ℤ) : List ℤ × List KVal :=
  let times := if hasSHIPPING key then everyThird field else everyOther field
  let rawvals :=
    if hasSHIPPING key then
      List.zipWith (· + ·) (everyThird (field.drop 1)) (everyThird (field.drop 2))
    else everyOther (field.drop 1)
  let values :=
    if isfloat then
      let base := rawvals.map fun (v : ℤ) =>
        if v < 0 ∧ outOfStockAsNan then KVal.nan else KVal.num ((v : ℚ) / 100)
      if key = "RATING" then base.map ratingScale else base
    else rawvals.map fun (v : ℤ) => KVal.num (v : ℚ)
  (keepa_minutes_to_time times, values)

/-- `csv_indices` (src/keepa/interface.py lines 53-86):
`(index in csv, key name, isfloat)`. -/
def csv_indices : List (ℕ × String × Bool) :=
  [(0, "AMAZON", true),
   (1, "NEW", true),
   (2, "USED", true),
   (3, "SALES", false),
   (4, "LISTPRICE", true),
   (5, "COLLECTIBLE", true),
   (6, "REFURBISHED", true),
   (7, "NEW_FBM_SHIPPING", true),
   (8, "LIGHTNING_DEAL", true),
   (9, "WAREHOUSE", true),
   (10, "NEW_FBA", true),
   (11, "COUNT_NEW", false),
   (12, "COUNT_USED", false),
   (13, "COUNT_REFURBISHED", false),
   (14, "CollectableOffers", false),
   (15, "EXTRA_INFO_UPDATES", false),
   (16, "RATING", true),
   (17, "COUNT_REVIEWS", false),
   (18, "BUY_BOX_SHIPPING", true),
   (19, "USED_NEW_SHIPPING", true),
   (20, "USED_VERY_GOOD_SHIPPING", true),
   (21, "USED_GOOD_SHIPPING", true),
   (22, "USED_ACCEPTABLE_SHIPPING", true),
   (23, "COLLECTIBLE_NEW_SHIPPING", true),
   (24, "COLLECTIBLE_VERY_GOOD_SHIPPING", true),
   (25, "COLLECTIBLE_GOOD_SHIPPING", true),
   (26, "COLLECTIBLE_ACCEPTABLE_SHIPPING", true),
   (27, "REFURBISHED_SHIPPING", true),
   (28, "EBAY_NEW_SHIPPING", true),
   (29, "EBAY_USED_SHIPPING", true),
   (30, "TRADE_IN", true),
   (31, "RENT", false)]

/-- `parse_csv` (src/keepa/interface.py lines 295-328): loop over
`csv_indices`, skipping falsy (empty) raw field arrays, decoding the rest with
the per-field body.  The returned association list carries, per key, the
decoded times and values (the source stores these as the `KEY_time`/`KEY`
entries of a dict, plus a dataframe `df_KEY` built from the same two
sequences). -/
def parse_csv (csv : ℕ → List ℤ) (outOfStockAsNan : Bool) :
    List (String × List ℤ × List KVal) :=
  csv_indices.filterMap fun e =>
    if csv e.1 ≠ [] then
      some (e.2.1, parseEntry e.2.1 e.2.2 outOfStockAsNan (csv e.1))
    else none

/-- Interleave time/value pairs into the wire layout of a plain field
`[time0, value0, time1, value1, ...]`. -/
def flat2 : List (ℤ × ℤ) → List ℤ
  | [] => []
  | (t, v) :: rest => t :: v :: flat2 rest

/-- Interleave time/value/shipping triples into the wire layout of a
shipping-inclusive field `[time0, value0, shipping0, time1, ...]`. -/
def flat3 : List (ℤ × ℤ × ℤ) → List ℤ
  | [] => []
  | (t, v, s) :: rest => t :: v :: s :: flat3 rest

theorem everyOther_flat2 : ∀ l : List (ℤ × ℤ), everyOther (flat2 l) = l.map Prod.fst
  | [] => rfl
  | (t, v) :: rest => by
    simp [flat2, everyOther, everyOther_flat2 rest]

theorem everyOther_flat2_drop :
    ∀ l : List (ℤ × ℤ), everyOther ((flat2 l).drop 1) = l.map Prod.snd
  | [] => rfl
  | (t, v) :: rest => by
    cases rest with
    | nil => rfl
    | cons q r =>
      obtain ⟨a, b⟩ := q
      have h := everyOther_flat2_drop ((a, b) :: r)
      simp only [flat2, List.drop] at h ⊢
      simp [everyOther, h]

theorem everyThird_flat3 : ∀ l : List (ℤ × ℤ × ℤ), everyThird (flat3 l) = l.map Prod.fst
  | [] => rfl
  | (t, v, s) :: rest => by
    simp [flat3, everyThird, everyThird_flat3 rest]

theorem everyThird_flat3_drop1 :
    ∀ l : List (ℤ × ℤ × ℤ), everyThird ((flat3 l).drop 1) = l.map (fun p => p.2.1)
  | [] => rfl
  | (t, v, s) :: rest => by
    cases rest with
    | nil => rfl
    | cons q r =>
      obtain ⟨a, b, c⟩ := q
      have h := everyThird_flat3_drop1 ((a, b, c) :: r)
      simp only [flat3, List.drop] at h ⊢
      simp [everyThird, h]

theorem everyThird_flat3_drop2 :
    ∀ l : List (ℤ × ℤ × ℤ), everyThird ((flat3 l).drop 2) = l.map (fun p => p.2.2)
  | [] => rfl
  | (t, v, s) :: rest => by
    cases rest with
    | nil => rfl
    | cons q r =>
      obtain ⟨a, b, c⟩ := q
      have h := everyThird_flat3_drop2 ((a, b, c) :: r)
      simp only [flat3, List.drop] at h ⊢
      simp [everyThird, h]

theorem zipWith_add_map (trips : List (ℤ × ℤ × ℤ)) :
    List.zipWith (· + ·) (trips.map fun p => p.2.1) (trips.map fun p => p.2.2) =
      trips.map (fun p => p.2.1 + p.2.2) := by
  induction trips with
  | nil => rfl
  | cons p r ih => simp [ih]

theorem flat2_ne_nil {l : List (ℤ × ℤ)} (h : l ≠ []) : flat2 l ≠ [] := by
  cases l with
  | nil => exact absurd rfl h
  | cons p r => obtain ⟨a, b⟩ := p; simp [flat2]

theorem flat3_ne_nil {l : List (ℤ × ℤ × ℤ)} (h : l ≠ []) : flat3 l ≠ [] := by
  cases l with
  | nil => exact absurd rfl h
  | cons p r => obtain ⟨a, b, c⟩ := p; simp [flat3]

/-- A csv mapping that is non-empty only at index 0 (`AMAZON`, a plain
price-like field) decodes to exactly one entry. -/
theorem parse_csv_at0 (raw : List ℤ) (hraw : raw ≠ []) (toNan : Bool) :
    parse_csv (fun i => if i = 0 then raw else []) toNan =
      [("AMAZON", parseEntry "AMAZON" true toNan raw)] := by
  simp [parse_csv, csv_indices, hraw]

/-- A csv mapping that is non-empty only at index 7 (`NEW_FBM_SHIPPING`, a
shipping-inclusive price-like field) decodes to exactly one entry. -/
theorem parse_csv_at7 (raw : List ℤ) (hraw : raw ≠ []) (toNan : Bool) :
    parse_csv (fun i => if i = 7 then raw else []) toNan =
      [("NEW_FBM_SHIPPING", parseEntry "NEW_FBM_SHIPPING" true toNan raw)] := by
  simp [parse_csv, csv_indices, hraw]

theorem parseEntry_plain (pairs : List (ℤ × ℤ)) (toNan : Bool)
    (hnn : ∀ p ∈ pairs, 0 ≤ p.2) :
    parseEntry "AMAZON" true toNan (flat2 pairs) =
      (keepa_minutes_to_time (pairs.map Prod.fst),
        pairs.map fun p => KVal.num ((p.2 : ℚ) / 100)) := by
  have hA : hasSHIPPING "AMAZON" = false := by decide
  simp only [parseEntry, hA, Bool.false_eq_true, if_false, eq_self_iff_true, if_true]
  rw [if_neg (by decide : ¬("AMAZON" = "RATING"))]
  rw [everyOther_flat2, everyOther_flat2_drop, List.map_map]
  refine congrArg (Prod.mk _) ?_
  refine List.map_congr_left fun p hp => ?_
  have h0 : ¬(p.2 < 0) := not_lt.2 (hnn p hp)
  simp [Function.comp, h0]

theorem parseEntry_ship (trips : List (ℤ × ℤ × ℤ)) (toNan : Bool)
    (hnn : ∀ p ∈ trips, 0 ≤ p.2.1 + p.2.2) :
    parseEntry "NEW_FBM_SHIPPING" true toNan (flat3 trips) =
      (keepa_minutes_to_time (trips.map Prod.fst),
        trips.map fun p => KVal.num (((p.2.1 + p.2.2 : ℤ) : ℚ) / 100)) := by
  have hS : hasSHIPPING "NEW_FBM_SHIPPING" = true := by decide
  simp only [parseEntry, hS, eq_self_iff_true, if_true]
  rw [if_neg (by decide : ¬("NEW_FBM_SHIPPING" = "RATING"))]
  rw [everyThird_flat3, everyThird_flat3_drop1, everyThird_flat3_drop2,
    zipWith_add_map, List.map_map]
  refine congrArg (Prod.mk _) ?_
  refine List.map_congr_left fun p hp => ?_
  have h0 : ¬(p.2.1 + p.2.2 < 0) := not_lt.2 (hnn p hp)
  simp [Function.comp, h0]

/-- **C6** (confirmed): `parse_csv` decodes a non-empty plain field
`[t0, v0, t1, v1, ...]` to times at even positions and values at odd
positions, and a SHIPPING field `[t0, v0, s0, t1, v1, s1, ...]` (stride 3) to
values `v_i + s_i`; price-like values are divided by 100 and times are integer
minutes added to the 2011-01-01T00:00:00Z anchor.  In particular the raw plain
field `[0, 500, 1440, 750]` yields values `[5.00, 7.50]` at times
`[epoch, epoch + 1 day]`, and the raw shipping field
`[0, 500, 100, 1440, 750, 0]` yields values `[6.00, 7.50]`.  (The general
statements assume non-negative raw values; negative values engage the
out-of-stock policy of C7.) -/
theorem c6_decode_round_trip :
    (∀ (pairs : List (ℤ × ℤ)) (toNan : Bool), pairs ≠ [] → (∀ p ∈ pairs, 0 ≤ p.2) →
      parse_csv (fun i => if i = 0 then flat2 pairs else []) toNan =
        [("AMAZON", keepa_minutes_to_time (pairs.map Prod.fst),
          pairs.map fun p => KVal.num ((p.2 : ℚ) / 100))]) ∧
    (∀ (trips : List (ℤ × ℤ × ℤ)) (toNan : Bool), trips ≠ [] →
      (∀ p ∈ trips, 0 ≤ p.2.1 + p.2.2) →
      parse_csv (fun i => if i = 7 then flat3 trips else []) toNan =
        [("NEW_FBM_SHIPPING", keepa_minutes_to_time (trips.map Prod.fst),
          trips.map fun p => KVal.num (((p.2.1 + p.2.2 : ℤ) : ℚ) / 100))]) ∧
    parse_csv (fun i => if i = 0 then [0, 500, 1440, 750] else []) true =
      [("AMAZON", [KEEPA_ST_ORDINAL, KEEPA_ST_ORDINAL + 1440],
        [KVal.num 5, KVal.num (15 / 2)])] ∧
    parse_csv (fun i => if i = 7 then [0, 500, 100, 1440, 750, 0] else []) true =
      [("NEW_FBM_SHIPPING", [KEEPA_ST_ORDINAL, KEEPA_ST_ORDINAL + 1440],
        [KVal.num 6, KVal.num (15 / 2)])] := by
  refine ⟨?_, ?_, ?_, ?_⟩
  · intro pairs toNan hne hnn
    rw [parse_csv_at0 _ (flat2_ne_nil hne) toNan, parseEntry_plain pairs toNan hnn]
  · intro trips toNan hne hnn
    rw [parse_csv_at7 _ (flat3_ne_nil hne) toNan, parseEntry_ship trips toNan hnn]
  · rw [parse_csv_at0 _ (by decide) true]
    have hA : hasSHIPPING "AMAZON" = false := by decide
    norm_num [parseEntry, everyOther, keepa_minutes_to_time, KEEPA_ST_ORDINAL, hA]
    exact fun h => absurd h (by decide)
  · rw [parse_csv_at7 _ (by decide) true]
    have hS : hasSHIPPING "NEW_FBM_SHIPPING" = true := by decide
    norm_num [parseEntry, everyThird, keepa_minutes_to_time, KEEPA_ST_ORDINAL, hS]
    exact fun h => absurd h (by decide)

theorem c6_witness :
    parse_csv (fun i => if i = 0 then flat2 [((0 : ℤ), (500 : ℤ)), (1440, 750)] else [])
        true =
      [("AMAZON",
        keepa_minutes_to_time ([((0 : ℤ), (500 : ℤ)), (1440, 750)].map Prod.fst),
        [((0 : ℤ), (500 : ℤ)), (1440, 750)].map fun p => KVal.num ((p.2 : ℚ) / 100))] ∧
    parse_csv
        (fun i => if i = 7 then flat3 [((0 : ℤ), (500 : ℤ), (100 : ℤ)), (1440, 750, 0)]
          else []) true =
      [("NEW_FBM_SHIPPING",
        keepa_minutes_to_time
          ([((0 : ℤ), (500 : ℤ), (100 : ℤ)), (1440, 750, 0)].map Prod.fst),
        [((0 : ℤ), (500 : ℤ), (100 : ℤ)), (1440, 750, 0)].map fun p =>
          KVal.num (((p.2.1 + p.2.2 : ℤ) : ℚ) / 100))] :=
  ⟨c6_decode_round_trip.1 _ true (by decide) (by decide),
    c6_decode_round_trip.2.1 _ true (by decide) (by decide)⟩

/-- **C7** (amended): for a price-type field entry with raw value `v < 0`,
`parse_csv` decodes the value to NaN when `out_of_stock_as_nan` is true, and
to `v / 100` — the same scaling applied to any other value — when it is false;
in particular the sentinel `-1` becomes `-0.01`.  (The unamended claim, that
every negative raw value becomes the literal `-0.01` under the false policy,
is refuted by `c7_counterexample`.) -/
theorem c7_out_of_stock (t v : ℤ) (hv : v < 0) :
    parse_csv (fun i => if i = 0 then [t, v] else []) true =
      [("AMAZON", [t + KEEPA_ST_ORDINAL], [KVal.nan])] ∧
    parse_csv (fun i => if i = 0 then [t, v] else []) false =
      [("AMAZON", [t + KEEPA_ST_ORDINAL], [KVal.num ((v : ℚ) / 100)])] := by
  have hA : hasSHIPPING "AMAZON" = false := by decide
  constructor <;>
  · rw [parse_csv_at0 _ (by simp) _]
    simp only [parseEntry, hA, Bool.false_eq_true, if_false, eq_self_iff_true, if_true]
    rw [if_neg (by decide : ¬("AMAZON" = "RATING"))]
    simp [everyOther, keepa_minutes_to_time, hv]

theorem c7_witness :
    parse_csv (fun i => if i = 0 then [0, -1] else []) true =
      [("AMAZON", [0 + KEEPA_ST_ORDINAL], [KVal.nan])] ∧
    parse_csv (fun i => if i = 0 then [0, -1] else []) false =
      [("AMAZON", [0 + KEEPA_ST_ORDINAL], [KVal.num (((-1 : ℤ) : ℚ) / 100)])] :=
  c7_out_of_stock 0 (-1) (by decide)

/-- **C7** (counterexample to the claim as stated): the raw value `-2` under
`out_of_stock_as_nan = false` decodes to `-0.02`, not to the literal `-0.01`
demanded by the claim for every negative raw value. -/
theorem c7_counterexample :
    parse_csv (fun i => if i = 0 then [0, -2] else []) false =
      [("AMAZON", [KEEPA_ST_ORDINAL], [KVal.num (-1 / 50)])] ∧
    KVal.num (-1 / 50) ≠ KVal.num (-1 / 100) := by
  constructor
  · have hA : hasSHIPPING "AMAZON" = false := by decide
    rw [parse_csv_at0 _ (by decide) false]
    simp only [parseEntry, hA, Bool.false_eq_true, if_false, eq_self_iff_true, if_true]
    rw [if_neg (by decide : ¬("AMAZON" = "RATING"))]
    norm_num [everyOther, keepa_minutes_to_time]
  · simp only [ne_eq, KVal.num.injEq]
    norm_num

/-- `DCODES` as defined in the module containing `Keepa._product_query`
(src/keepa/interface.py line 47, likewise keepa/interface.py and
keepaAPI/Interface.py): twelve entries, without `"BR"`. -/
def DCODES : List String :=
  ["RESERVED", "US", "GB", "DE", "FR", "JP", "CA", "CN", "IT", "ES", "IN", "MX"]

/-- `DCODES` as defined in the newest layout (src/keepa/constants.py lines
22-36): thirteen entries, ending with `"BR"` at index 12. -/
def DCODES_constants : List String :=
  ["RESERVED", "US", "GB", "DE", "FR", "JP", "CA", "CN", "IT", "ES", "IN", "MX", "BR"]

deriving instance DecidableEq for Except

/-- Python's `list.index(x)`: the first index of `x`, or a `ValueError` when
`x` is absent. -/
def pyIndex (l : List String) (x : String) : Except String ℕ :=
  match l.indexOf? x with
  | some i => .ok i
  | none => .error "ValueError"

/-- The domain encoding performed by `Keepa._product_query`
(src/keepa/interface.py line 937): `DCODES.index(kwargs["domain"])` over the
twelve-entry table of that module. -/
def productQueryDomain (domain : String) : Except String ℕ := pyIndex DCODES domain

/-- `_domain_to_dcode` (src/keepa/utils.py lines 278-289), the encoding used
by the newest `keepa_async.AsyncKeepa._product_query`: reject a string outside
the constants table with a `ValueError`, otherwise return its index. -/
def domainToDcode (domain : String) : Except String ℕ :=
  if DCODES_constants.contains domain then pyIndex DCODES_constants domain
  else .error "Invalid domain code"

/-- **C9** (amended): the newest domain encoding (`_domain_to_dcode` over the
13-entry constants table) accepts every domain string of the locale table and
maps it to its index — in particular `"BR"` to 12 — while the legacy
`Keepa._product_query` encoding uses the 12-entry table of its own module,
accepts only its twelve strings at their indices, and raises a `ValueError`
on `"BR"`. -/
theorem c9_domain_codes :
    (∀ i : Fin 13, domainToDcode (DCODES_constants.get i) = .ok i.val) ∧
    domainToDcode "BR" = .ok 12 ∧
    (∀ i : Fin 12, productQueryDomain (DCODES.get i) = .ok i.val) ∧
    productQueryDomain "BR" = .error "ValueError" := by
  refine ⟨?_, by decide, ?_, by decide⟩ <;> decide

/-- **C9** (counterexample to the claim as stated): the cited
`Keepa._product_query` does not accept `"BR"`: its `DCODES.index` raises a
`ValueError` instead of producing the wire value 12. -/
theorem c9_counterexample :
    productQueryDomain "BR" = .error "ValueError" ∧
    productQueryDomain "BR" ≠ .ok 12 := by decide

/-- The decoded JSON body of a keepa response, restricted to the fields
`_request` touches: the optional `"error"` object (`none` models both an
absent key and JSON `null`; a present object is its key/value list, truthy in
Python exactly when non-empty), the authoritative `"tokensLeft"`, and the
decoded `"products"` list (product records abstracted to identifiers). -/
structure RBody where
  errorField : Option (List (String × String))
  tokensLeft : ℤ
  products : List ℕ
deriving DecidableEq, Repr

/-- One transport-level response: HTTP status code plus decoded body. -/
structure TResp where
  status : ℕ
  body : RBody
deriving DecidableEq, Repr

/-- `SCODES` (src/keepa/interface.py lines 37-42). -/
def SCODES (s : ℕ) : Option String :=
  if s = 400 then some "REQUEST_REJECTED"
  else if s = 402 then some "PAYMENT_REQUIRED"
  else if s = 405 then some "METHOD_NOT_ALLOWED"
  else if s = 429 then some "NOT_ENOUGH_TOKEN"
  else none

/-- The retry loop of `Keepa._request` (src/keepa/interface.py lines
2571-2588; identical logic in `AsyncKeepa._request` lines 3019-3035): issue
the same payload against successive transport responses.  A 429 with
`wait=True` waits for tokens and retries the same request; any other known
non-200 code raises its `SCODES` name; an unknown code raises
`REQUEST_FAILED`.  The oracle `resps` lists the responses the transport
returns for the successive attempts; the result is the first accepted
response together with the unconsumed oracle. -/
def requestLoop (wait : Bool) : List TResp → Except String (TResp × List TResp)
  | [] => .error "NO_RESPONSE"
  | r :: rest =>
    if r.status ≠ 200 then
      match SCODES r.status with
      | some name =>
        if r.status = 429 ∧ wait then requestLoop wait rest
        else .error name
      | none => .error "REQUEST_FAILED"
    else .ok (r, rest)

/-- The client-side ledger field `_request` assigns: `self.tokens_left`. -/
structure KState where
  tokens_left : ℤ
deriving DecidableEq, Repr

/-- Python truthiness of the decoded `"error"` field: an absent key and JSON
`null` are falsy, and so is an empty object `{}`; any non-empty object is
truthy. -/
def errTruthy : Option (List (String × String)) → Bool
  | none => false
  | some o => !o.isEmpty

/-- The response-processing tail of `Keepa._request` (src/keepa/interface.py
lines 2590-2604): after an accepted 200 response, a truthy `"error"` value
raises `Exception(error["message"])` before the assignment
`self.tokens_left = response["tokensLeft"]` is reached; otherwise the
assignment runs.  Returns the result together with the post-state.  (A truthy
error object without a `"message"` key raises a `KeyError` in python —
still before the assignment; the model uses a placeholder message.) -/
def processBody (st : KState) (b : RBody) : Except String RBody × KState :=
  if errTruthy b.errorField then
    (.error (((b.errorField.getD []).lookup "message").getD "KeyError"), st)
  else (.ok b, { tokens_left := b.tokensLeft })

/-- `Keepa._request` for one payload: the retry loop followed by body
processing.  `st` is the client state on entering the loop (the optional
leading `wait_for_tokens`, like the waits inside the retry branch, performs
its own token-endpoint `_request` and is a separate call with its own
oracle). -/
def keepaRequest (wait : Bool) (st : KState) (resps : List TResp) :
    Except String RBody × KState :=
  match requestLoop wait resps with
  | .error e => (.error e, st)
  | .ok (r, _) => processBody st r.body

/-- The modern `Keepa.query` dispatch loop together with its transport calls
(src/keepa/interface.py lines 832-869): iterate over sub-batches, running the
request loop per batch against the response oracle and extending the
accumulator with `response["products"]`; an exception in any sub-batch
propagates, aborting the whole call and discarding the accumulated list. -/
def dispatchLoop (wait : Bool) (nitems idx : ℕ) (resps : List TResp) :
    Except String (List ℕ) :=
  if idx < nitems then
    match requestLoop wait resps with
    | .error e => .error e
    | .ok (r, rest) =>
      match dispatchLoop wait nitems (idx + nrequestQuery nitems idx) rest with
      | .error e => .error e
      | .ok ps => .ok (r.body.products ++ ps)
  else .ok []
termination_by nitems - idx
decreasing_by simp only [nrequestQuery]; split <;> omega

/-- **C5** (confirmed): a 429 response when the caller opted to wait makes
`_request` wait for tokens and retry the same request (the loop continues
into the remaining oracle); without opting in, the 429 raises
`NOT_ENOUGH_TOKEN`; a raising `_request` makes the dispatch call return that
error; and an error in any later sub-batch likewise makes the whole dispatch
call return the error, discarding the products accumulated from the earlier
successful sub-batches (no partial-success return). -/
theorem c5_429_handling :
    (∀ (r : TResp) (rest : List TResp), r.status = 429 →
      requestLoop true (r :: rest) = requestLoop true rest) ∧
    (∀ (r : TResp) (rest : List TResp), r.status = 429 →
      requestLoop false (r :: rest) = .error "NOT_ENOUGH_TOKEN") ∧
    (∀ (wait : Bool) (nitems idx : ℕ) (resps : List TResp) (e : String),
      idx < nitems → requestLoop wait resps = .error e →
      dispatchLoop wait nitems idx resps = .error e) ∧
    (∀ (wait : Bool) (nitems idx : ℕ) (resps rest : List TResp) (r : TResp)
      (e : String), idx < nitems → requestLoop wait resps = .ok (r, rest) →
      dispatchLoop wait nitems (idx + nrequestQuery nitems idx) rest = .error e →
      dispatchLoop wait nitems idx resps = .error e) := by
  refine ⟨?_, ?_, ?_, ?_⟩
  · intro r rest h
    simp [requestLoop, h, SCODES]
  · intro r rest h
    simp [requestLoop, h, SCODES]
  · intro wait nitems idx resps e hidx herr
    rw [dispatchLoop, if_pos hidx, herr]
  · intro wait nitems idx resps rest r e hidx hok herr
    rw [dispatchLoop, if_pos hidx, hok]
    simp only [herr]

/-- A transport oracle answering 429, and one answering 200 with two decoded
products. -/
def resp429 : TResp := ⟨429, ⟨none, 0, []⟩⟩

def respOK : TResp := ⟨200, ⟨none, 300, [1, 2]⟩⟩

theorem c5_witness :
    requestLoop true (resp429 :: [respOK]) = requestLoop true [respOK] ∧
    requestLoop false (resp429 :: []) = .error "NOT_ENOUGH_TOKEN" ∧
    dispatchLoop false 5 0 [resp429] = .error "NOT_ENOUGH_TOKEN" ∧
    dispatchLoop false 250 0 [respOK, resp429] = .error "NOT_ENOUGH_TOKEN" :=
  ⟨c5_429_handling.1 resp429 [respOK] rfl,
    c5_429_handling.2.1 resp429 [] rfl,
    c5_429_handling.2.2.1 false 5 0 [resp429] _ (by decide) (by decide),
    c5_429_handling.2.2.2 false 250 0 [respOK, resp429] [resp429] respOK _
      (by decide) (by decide)
      (c5_429_handling.2.2.1 false 250 100 [resp429] _ (by decide) (by decide))⟩

/-- **C10** (amended): for every accepted response whose parsed body contains
a truthy — that is, non-empty — `"error"` object, `_request` raises before
the assignment to `tokens_left` is reached, so the client's ledger is
returned unchanged.  (`self.status` is likewise untouched: `_request` never
assigns it.  The unamended claim, covering every non-null error object, is
refuted by `c10_counterexample` on the falsy empty object.) -/
theorem c10_error_body (w : Bool) (st : KState) (r : TResp) (rest : List TResp)
    (errObj : List (String × String)) (h200 : r.status = 200)
    (herr : r.body.errorField = some errObj) (hne : errObj ≠ []) :
    keepaRequest w st (r :: rest) =
      (.error ((errObj.lookup "message").getD "KeyError"), st) := by
  have hemp : errObj.isEmpty = false := by
    cases errObj with
    | nil => exact absurd rfl hne
    | cons a l => rfl
  simp [keepaRequest, requestLoop, h200, processBody, errTruthy, herr, hemp]

theorem c10_witness :
    keepaRequest true ⟨5⟩ [⟨200, ⟨some [("message", "boom")], 777, []⟩⟩] =
      (.error "boom", ⟨5⟩) :=
  c10_error_body true ⟨5⟩ ⟨200, ⟨some [("message", "boom")], 777, []⟩⟩ []
    [("message", "boom")] rfl rfl (by decide)

/-- **C10** (counterexample to the claim as stated): a 200 response whose body
carries the non-null but empty error object `{}` is falsy in python, so
`_request` does not raise: it reaches the assignment and overwrites the
ledger's `tokens_left` (here from 5 to 777). -/
theorem c10_counterexample :
    (⟨200, ⟨some [], 777, []⟩⟩ : TResp).body.errorField = some [] ∧
    keepaRequest true ⟨5⟩ [⟨200, ⟨some [], 777, []⟩⟩] =
      (.ok ⟨some [], 777, []⟩, ⟨777⟩) ∧
    (⟨777⟩ : KState) ≠ ⟨5⟩ := by decide
